import Mathlib

/-
  Verification development for the GitHub repository summarizer app
  (single source file `app.py`).

  The Python source is shallowly embedded below.  Pure helper functions
  (`is_valid_github_url`, `extract_github_details`, `check_github_repo_exists`,
  `load_documents`, `create_index`, `create_summary`) become Lean functions.
  The Streamlit script body `main` reruns top-to-bottom on every user
  interaction with a persistent `st.session_state`; one rerun is embedded as a
  step function `mainStep` on an explicit `SessionState`, parameterised by an
  environment `Env` of external-effect oracles (HTTP status codes, repository
  file listings, chat-engine answers).  Each externally observable effect is
  recorded in a `Call` trace so that "X is invoked / is not invoked" claims
  are statable.

  External library code (urllib's `urlparse`, llama-index's
  `GithubRepositoryReader`, `TokenTextSplitter`, index constructors and chat
  engines, streamlit's rerun model) is not part of the repository; those
  pieces are modelled from the specification's description of them, and each
  such definition carries a doc comment saying so.
-/

set_option maxRecDepth 20000

/-! ## Character-list utilities used by the URL model -/

/-- Scheme characters accepted by `urllib.parse` (letters, digits, `+`, `-`, `.`). -/
def isSchemeChar (c : Char) : Bool :=
  c.isAlphanum || c = '+' || c = '-' || c = '.'

/-- Split a character list at the first `':'`, returning the parts before and
after it, or `none` when there is no colon.  Mirrors Python's `url.find(':')`. -/
def splitAtColon : List Char → Option (List Char × List Char)
  | [] => none
  | c :: cs =>
    if c = ':' then some ([], cs)
    else
      match splitAtColon cs with
      | some p => some (c :: p.1, p.2)
      | none => none

/-- Take the network-location part: characters up to the first `'/'`, `'?'`
or `'#'`; also returns the remainder (which starts with the delimiter). -/
def takeNetloc : List Char → List Char × List Char
  | [] => ([], [])
  | c :: cs =>
    if c = '/' ∨ c = '?' ∨ c = '#' then ([], c :: cs)
    else
      let p := takeNetloc cs
      (c :: p.1, p.2)

/-- The path part: characters up to the first `'?'` or `'#'`. -/
def takePath : List Char → List Char
  | [] => []
  | c :: cs => if c = '?' ∨ c = '#' then [] else c :: takePath cs

/-- Split a character list at the first occurrence of `'/'`; `none` when no
slash occurs.  Mirrors Python's `path.split("/", 1)`, whose result fails to
unpack into two variables (raising `ValueError`) exactly when it is `none` here. -/
def splitOnceSlash : List Char → Option (List Char × List Char)
  | [] => none
  | c :: cs =>
    if c = '/' then some ([], cs)
    else
      match splitOnceSlash cs with
      | some p => some (c :: p.1, p.2)
      | none => none

/-- Python's `s.strip("/")`: remove every leading and trailing `'/'`. -/
def stripSlashes (s : String) : String :=
  String.mk (((s.data.dropWhile (· = '/')).reverse.dropWhile (· = '/')).reverse)

/-! ## Parsed URLs -/

/-- The three components of a parsed URL that `app.py` reads
(`scheme`, `netloc`, `path`). -/
structure ParsedUrl where
  scheme : String
  netloc : String
  path : String
deriving DecidableEq, Repr

/-- Modelled from the spec: `urllib.parse.urlparse` (Python standard library,
not part of this repository).  Restricted to the scheme/netloc/path split the
source reads: the scheme is the (lower-cased) run of scheme characters before
the first `':'` when it starts with a letter; a netloc is present only after
`"//"` and extends to the first `'/'`, `'?'` or `'#'`; the path is the
remainder up to the first `'?'` or `'#'`.  Query strings, fragments and
`';'`-parameters are not split into their own components. -/
def urlparse (url : String) : ParsedUrl :=
  let cs := url.data
  let sp : List Char × List Char :=
    match splitAtColon cs with
    | some (a, b) =>
      if a ≠ [] ∧ (a.headD ' ').isAlpha ∧ a.all isSchemeChar then
        (a.map Char.toLower, b)
      else ([], cs)
    | none => ([], cs)
  let nl : List Char × List Char :=
    if sp.2.take 2 = ['/', '/'] then takeNetloc (sp.2.drop 2)
    else ([], sp.2)
  ⟨String.mk sp.1, String.mk nl.1, String.mk (takePath nl.2)⟩

/-- Python's `s.startswith("/")`: the first character is `'/'`. -/
def startsWithSlash (s : String) : Bool :=
  match s.data with
  | '/' :: _ => true
  | _ => false

/-- Source `app.py` lines 62–66: the URL validator.  It checks only the scheme, the
host and that the path begins with `"/"`. -/
def is_valid_github_url (url : String) : Bool :=
  let parsed_url := urlparse url
  (parsed_url.scheme == "http" || parsed_url.scheme == "https") &&
    parsed_url.netloc == "github.com" && startsWithSlash parsed_url.path

/-- Source `app.py` lines 52–60: extract the owner and repository name.  Python
returns the pair `(None, None)` when the stripped path does not contain
exactly one `"/"`; that pair is modelled as `(none, none)`. -/
def extract_github_details (url : String) : Option String × Option String :=
  let path := stripSlashes (urlparse url).path
  if path.data.count '/' = 1 then
    match splitOnceSlash path.data with
    | some p => (some (String.mk p.1), some (String.mk p.2))
    | none => (none, none)
  else (none, none)

/-! ## Documents, external-effect environment, fetching -/

/-- A repository file as retrieved by the fetcher: its path inside the
repository and its text content as an opaque token sequence. -/
structure Document where
  path : String
  tokens : List Nat
deriving DecidableEq, Repr

/-- Oracles for every external effect the script performs.  HTTP responses,
the repository tree served by the GitHub API and the answers produced by the
two llama-index chat engines are outside the program; a fixed `Env` value
describes one possible behavior of the outside world.  Engine calls return
`Except`: `.error` models the Python call raising an exception. -/
structure Env where
  /-- Status code of `GET https://github.com/{user}/{repo}`. -/
  status : String → String → Nat
  /-- Raw file tree served for (owner, repo, branch) before any filtering. -/
  listFiles : Option String → Option String → String → List Document
  /-- Result of `summary_query_engine.query(question)`. -/
  summaryQuery : String → Except String String
  /-- Result of `query_engine.chat(question)`, already as the string
  `str(response.response)`. -/
  chat : String → Except String String

/-- Source `app.py` lines 68–77: existence check.  The `try` block unpacks
`path.split("/", 1)` into two variables; with no `"/"` in the stripped path
that raises `ValueError`, which the `except` clause converts to `False`
(the `none` branch here).  Otherwise the HTTP status decides. -/
def check_github_repo_exists (env : Env) (url : String) : Bool :=
  match splitOnceSlash (stripSlashes (urlparse url).path).data with
  | none => false
  | some p => env.status (String.mk p.1) (String.mk p.2) == 200

/-- The final path segment (after the last `'/'`). -/
def lastSegment (cs : List Char) : List Char :=
  (cs.reverse.takeWhile (· ≠ '/')).reverse

/-- Modelled from the spec: the file extension as used by the reader's
extension filter — the suffix of the final path segment from its last `'.'`
(dot included), or `""` when the segment has no dot. -/
def extOf (s : String) : String :=
  let seg := lastSegment s.data
  let tail := seg.reverse.takeWhile (· ≠ '.')
  if tail.length = seg.length then "" else String.mk ('.' :: tail.reverse)

/-- Split a path into its `'/'`-separated segments. -/
def pathSegments : List Char → List (List Char)
  | [] => [[]]
  | c :: cs =>
    if c = '/' then [] :: pathSegments cs
    else
      match pathSegments cs with
      | [] => [[c]]
      | s :: rest => (c :: s) :: rest

/-- Modelled from the spec: a file lies under an excluded directory when the
directory's path segments are an initial run of the file's path segments
(exact path-segment match, not substring match). -/
def underDir (dir : String) (p : String) : Bool :=
  (pathSegments dir.data).isPrefixOf (pathSegments p.data)

/-- The fixed extension denylist passed by `load_documents`
(`app.py` lines 29–41). -/
def fileExtDenylist : List String :=
  [".png", ".jpg", ".jpeg", ".gif", ".svg", ".ico", ".pdf", ".csv"]

/-- Source `app.py` lines 17–42: fetch the repository tree.  The traversal and
filtering live in llama-index's `GithubRepositoryReader` (external); its
filters are modelled from the spec: with `FilterType.EXCLUDE` a file is kept
only when it is under none of the excluded directories and its extension is
not in the denylist.  The client argument is kept for signature fidelity. -/
def load_documents (env : Env) (_github_client : Option Unit)
    (user repo : Option String) (excluded_dirs : List String)
    (branch : String) : List Document :=
  (env.listFiles user repo branch).filter fun d =>
    !(excluded_dirs.any fun dir => underDir dir d.path) &&
      !(fileExtDenylist.contains (extOf d.path))

/-! ## Index building -/

/-- The node-pipeline transformations the source constructs
(`app.py` lines 173–175). -/
inductive Transformation where
  | tokenTextSplitter (chunk_size chunk_overlap : Nat)
deriving DecidableEq, Repr

/-- Fuel-indexed worker for the token splitter; the fuel is an upper bound on
the number of remaining tokens, so the `0`-fuel fallback is never reached
when the step is positive. -/
def splitTokensGo (size step : Nat) : Nat → List Nat → List (List Nat)
  | _, [] => []
  | 0, ts => [ts]
  | fuel + 1, ts =>
    if ts.length ≤ size then [ts]
    else ts.take size :: splitTokensGo size step fuel (ts.drop step)

/-- Modelled from the spec: llama-index's `TokenTextSplitter` (external
library) splits a token sequence into consecutive windows of at most
`chunk_size` tokens, each window starting `chunk_size - chunk_overlap`
tokens after the previous one, so that consecutive windows share
`chunk_overlap` tokens. -/
def splitTokens (chunk_size chunk_overlap : Nat) (ts : List Nat) :
    List (List Nat) :=
  splitTokensGo chunk_size (chunk_size - chunk_overlap) ts.length ts

/-- Modelled from the spec: applying one pipeline transformation to the
current list of nodes (token sequences). -/
def applyTransformation : Transformation → List (List Nat) → List (List Nat)
  | .tokenTextSplitter size overlap, nodes =>
    (nodes.map (splitTokens size overlap)).flatten

/-- The retrieval index: the embedded chunks it was built over. -/
structure RetrievalIndex where
  chunks : List (List Nat)
deriving DecidableEq, Repr

/-- The summary index: one node per whole document. -/
structure SummaryIdx where
  nodes : List (List Nat)
deriving DecidableEq, Repr

/-- Source `app.py` lines 44–46: `VectorStoreIndex.from_documents` with the given
transformations.  The external pipeline is modelled from the spec: the
transformations are applied in order to the documents' token sequences and
the resulting nodes are embedded into the index. -/
def create_index (documents : List Document)
    (transformations : List Transformation) : RetrievalIndex :=
  ⟨transformations.foldl (fun nodes t => applyTransformation t nodes)
    (documents.map Document.tokens)⟩

/-- Source `app.py` lines 48–50: `SummaryIndex.from_documents`, modelled from the
spec as indexing each whole document with no chunking transformation. -/
def create_summary (documents : List Document) : SummaryIdx :=
  ⟨documents.map Document.tokens⟩

/-- The transformation list built in `main` (`app.py` lines 173–175). -/
def mainTransformations : List Transformation :=
  [.tokenTextSplitter 512 128]

/-- A conversational engine bound to one index (`as_chat_engine`); its call
results are supplied by the environment oracles. -/
structure ChatEngine where
  nodes : List (List Nat)
deriving DecidableEq, Repr

/-- Method `index.as_chat_engine(chat_mode=ChatMode.CONTEXT)`. -/
def RetrievalIndex.as_chat_engine (ix : RetrievalIndex) : ChatEngine :=
  ⟨ix.chunks⟩

/-- Method `summary.as_chat_engine(chat_mode=ChatMode.CONTEXT)`. -/
def SummaryIdx.as_chat_engine (s : SummaryIdx) : ChatEngine :=
  ⟨s.nodes⟩

/-! ## Session state and one Streamlit rerun -/

/-- One record of `st.session_state.chat_history` (`app.py` lines 234–238):
the question and the stringified retrieval-engine chat response. -/
structure ChatEntry where
  question : String
  achat_response : String
deriving DecidableEq, Repr

/-- The persistent `st.session_state` fields (`app.py` lines 118–124). -/
structure SessionState where
  github_client : Option Unit
  index : Option RetrievalIndex
  summary : Option SummaryIdx
  query_engine : Option ChatEngine
  summary_query_engine : Option ChatEngine
  chat_history : List ChatEntry
deriving DecidableEq, Repr

/-- The state installed on the first rerun (`app.py` lines 118–124): every
field `None`, the history empty. -/
def SessionState.init : SessionState :=
  ⟨none, none, none, none, none, []⟩

/-- All four lazily created objects are present: the session can answer
questions without re-entering earlier stages. -/
def isReady (st : SessionState) : Bool :=
  st.index.isSome && st.summary.isSome &&
    st.query_engine.isSome && st.summary_query_engine.isSome

/-- The widget values a single rerun sees. -/
structure Inputs where
  github_repo_link : String
  branch : String
  exclude_dirs_checked : Bool
  excluded_dirs_input : String
  question : String
  submit : Bool
deriving DecidableEq, Repr

/-- Source `app.py` lines 163–171: the excluded-directory list is non-empty only
when the checkbox is ticked and the text input is non-empty; entries are
comma-split and stripped. -/
def parseExcludedDirs (inp : Inputs) : List String :=
  if inp.exclude_dirs_checked then
    if inp.excluded_dirs_input = "" then []
    else (inp.excluded_dirs_input.splitOn ",").map String.trim
  else []

/-- Externally observable operations of one rerun, in program order. -/
inductive Call where
  /-- `check_github_repo_exists` was invoked on this URL (the network
  existence probe). -/
  | checkRepo (url : String)
  /-- `load_documents` was invoked (the GitHub fetch). -/
  | fetch (user repo : Option String) (excluded_dirs : List String)
      (branch : String)
  /-- `create_index` was invoked. -/
  | buildIndex
  /-- `create_summary` was invoked. -/
  | buildSummary
  /-- `summary_query_engine.query` was invoked on this question. -/
  | engineQuery (question : String)
  /-- `query_engine.chat` was invoked on this question. -/
  | engineChat (question : String)
deriving DecidableEq, Repr

/-- Recognises fetch calls regardless of their arguments. -/
def isFetchCall : Call → Bool
  | .fetch _ _ _ _ => true
  | _ => false

/-- Source `app.py` lines 225–238, the submit-button handler's core: both engine
calls are submitted to the two-worker pool (so both always run), then
`future_summary.result()` is awaited before `future_achat.result()` — an
exception from either propagates (modelled as `.error`, summary's error
first) and the history append on lines 234–238 is only reached when both
succeed. -/
def submitQuestion (env : Env) (question : String)
    (chat_history : List ChatEntry) :
    List Call × Except String (List ChatEntry) :=
  ([Call.engineQuery question, Call.engineChat question],
    match env.summaryQuery question, env.chat question with
    | .error e, _ => .error e
    | .ok _, .error e => .error e
    | .ok _, .ok a => .ok (chat_history ++ [⟨question, a⟩]))

/-- Source `app.py` lines 134–135: create the `GithubClient` once. -/
def clientPhase (st : SessionState) : SessionState :=
  if st.github_client = none then { st with github_client := some () } else st

/-- Source `app.py` lines 178–187: fetch and build both indices, but only when
`index` or `summary` is still `None`; on completion both fields are set. -/
def buildPhase (env : Env) (github_client : Option Unit)
    (user repo : Option String) (excluded_dirs : List String)
    (branch : String) (st : SessionState) : SessionState × List Call :=
  if st.index = none ∨ st.summary = none then
    let documents := load_documents env github_client user repo
      excluded_dirs branch
    ({ st with
        index := some (create_index documents mainTransformations),
        summary := some (create_summary documents) },
      [Call.fetch user repo excluded_dirs branch, Call.buildIndex,
        Call.buildSummary])
  else (st, [])

/-- Source `app.py` lines 189–190: construct the retrieval chat engine once from
the stored index.  (At this point in the source the index is always present;
the `none` fallback leaves the engine unset and is unreachable from
`mainStep`.) -/
def engineIndexPhase (st : SessionState) : SessionState :=
  if st.query_engine = none then
    { st with query_engine := st.index.map RetrievalIndex.as_chat_engine }
  else st

/-- Source `app.py` lines 191–192: construct the summary chat engine once. -/
def engineSummaryPhase (st : SessionState) : SessionState :=
  if st.summary_query_engine = none then
    { st with
        summary_query_engine := st.summary.map SummaryIdx.as_chat_engine }
  else st

/-- Source `app.py` lines 189–192: both lazy engine constructions in program order. -/
def enginePhase (st : SessionState) : SessionState :=
  engineSummaryPhase (engineIndexPhase st)

/-- Source `app.py` lines 225–239: the submit handler runs only when the button was
clicked and the question text is non-empty; when an engine call raises, the
exception leaves the history untouched. -/
def submitPhase (env : Env) (st : SessionState) (submit : Bool)
    (question : String) : SessionState × List Call :=
  if submit then
    if question = "" then (st, [])
    else
      match (submitQuestion env question st.chat_history).2 with
      | .ok h =>
        ({ st with chat_history := h },
          (submitQuestion env question st.chat_history).1)
      | .error _ => (st, (submitQuestion env question st.chat_history).1)
  else (st, [])

/-- The body reached once the URL is validated and the repository exists
(`app.py` lines 134–239). -/
def mainCore (env : Env) (st : SessionState) (inp : Inputs) :
    SessionState × List Call :=
  let st1 := clientPhase st
  let ur := extract_github_details inp.github_repo_link
  let excluded_dirs := parseExcludedDirs inp
  let b := buildPhase env st1.github_client ur.1 ur.2 excluded_dirs
    inp.branch st1
  let st3 := enginePhase b.1
  let sq := submitPhase env st3 inp.submit inp.question
  (sq.1, b.2 ++ sq.2)

/-- One Streamlit rerun of `main` (`app.py` lines 117–242) over the
persistent session state.  An empty URL box renders nothing further; an
invalid URL shows an error before any network call; a failing existence
check shows an error; otherwise the validated body runs. -/
def mainStep (env : Env) (st : SessionState) (inp : Inputs) :
    SessionState × List Call :=
  if inp.github_repo_link = "" then (st, [])
  else if is_valid_github_url inp.github_repo_link = false then (st, [])
  else if check_github_repo_exists env inp.github_repo_link = false then
    (st, [Call.checkRepo inp.github_repo_link])
  else
    let c := mainCore env st inp
    (c.1, Call.checkRepo inp.github_repo_link :: c.2)

/-- A session: a sequence of reruns, accumulating the call trace. -/
def mainRun (env : Env) : SessionState → List Inputs →
    SessionState × List Call
  | st, [] => (st, [])
  | st, inp :: rest =>
    ((mainRun env (mainStep env st inp).1 rest).1,
      (mainStep env st inp).2 ++ (mainRun env (mainStep env st inp).1 rest).2)

/-! ## Claim C1 -/

/-- Claim C1 as stated: every URL that does not have scheme http/https, host
exactly `github.com` and a path with exactly one `"/"` separating owner and
repo is rejected by the validator. -/
def claimC1 : Prop :=
  ∀ url : String,
    ¬(((urlparse url).scheme = "http" ∨ (urlparse url).scheme = "https") ∧
        (urlparse url).netloc = "github.com" ∧
        (stripSlashes (urlparse url).path).data.count '/' = 1) →
    is_valid_github_url url = false

/-- Fixture environment whose status oracle always reports 200, so that any
`false` answer of the existence check is due to the code, not the network. -/
def envAll200 : Env :=
  { status := fun _ _ => 200
    listFiles := fun _ _ _ => []
    summaryQuery := fun _ => .ok "summary answer"
    chat := fun _ => .ok "chat answer" }

/-- Fixture repository tree with one text file and one image. -/
def envTwoFiles : Env :=
  { status := fun _ _ => 200
    listFiles := fun _ _ _ => [⟨"src/app.py", [1, 2]⟩, ⟨"logo.png", [3]⟩]
    summaryQuery := fun _ => .ok "summary answer"
    chat := fun _ => .ok "chat answer" }

def isBuildIndexCall : Call → Bool
  | .buildIndex => true
  | _ => false

def isBuildSummaryCall : Call → Bool
  | .buildSummary => true
  | _ => false

/-! ## Fixtures for concrete scenarios -/

/-- A session state in which every lazy field is already populated
(`Ready` in the spec's state machine), with empty indices and history. -/
def readyState : SessionState :=
  ⟨some (), some ⟨[]⟩, some ⟨[]⟩, some ⟨[]⟩, some ⟨[]⟩, []⟩

/-- Baseline widget values: repository `a/b`, branch `main`, no exclusions,
no question submitted. -/
def inpRepoA : Inputs :=
  { github_repo_link := "https://github.com/a/b"
    branch := "main"
    exclude_dirs_checked := false
    excluded_dirs_input := ""
    question := ""
    submit := false }

/-- The same widget values with a different repository URL. -/
def inpRepoB : Inputs :=
  { inpRepoA with github_repo_link := "https://github.com/c/d" }

/-- Submitting the question `"a"`. -/
def inpQa : Inputs := { inpRepoA with question := "a", submit := true }

/-- Submitting the question `"b"`. -/
def inpQb : Inputs := { inpRepoA with question := "b", submit := true }

/-- Environment whose summary engine raises on every question. -/
def envErrSummary : Env :=
  { status := fun _ _ => 200
    listFiles := fun _ _ _ => []
    summaryQuery := fun _ => .error "summary backend failure"
    chat := fun _ => .ok "chat answer" }

/-- Environment whose retrieval chat engine answers the empty string. -/
def envEmptyAnswer : Env :=
  { status := fun _ _ => 200
    listFiles := fun _ _ _ => []
    summaryQuery := fun _ => .ok "summary answer"
    chat := fun _ => .ok "" }

/-! ## Claim C2 -/

/-- Claim C2 as stated: from a `Ready` session, supplying a different, valid
and existing repository URL resets the machine, so the rerun fetches and
rebuilds (a fetch call appears in the trace and `create_index` runs). -/
def claimC2 : Prop :=
  ∀ (env : Env) (inpA inpB : Inputs),
    isReady (mainStep env SessionState.init inpA).1 = true →
    inpB.github_repo_link ≠ inpA.github_repo_link →
    is_valid_github_url inpB.github_repo_link = true →
    check_github_repo_exists env inpB.github_repo_link = true →
    ((mainStep env (mainStep env SessionState.init inpA).1 inpB).2.any
        isFetchCall = true ∧
      Call.buildIndex ∈
        (mainStep env (mainStep env SessionState.init inpA).1 inpB).2)

/-! ## Claim C4 -/

/-- Question inputs used by the C4 witness. -/
def inpQ1 : Inputs :=
  { inpRepoA with question := "what does this repo do", submit := true }

/-- Second question input used by the C4 witness. -/
def inpQ2 : Inputs :=
  { inpRepoA with question := "list the main modules", submit := true }

/-! ## Claim C6 -/

/-- Claim C6 as stated: two questions submitted in sequence in a `Ready`
session append exactly two entries, in submission order, each with a
non-empty question and a non-empty answer. -/
def claimC6 : Prop :=
  ∀ (env : Env) (st : SessionState) (inp1 inp2 : Inputs),
    isReady st = true →
    inp1.submit = true → inp2.submit = true →
    inp1.question ≠ "" → inp2.question ≠ "" →
    ∃ a1 a2, a1 ≠ "" ∧ a2 ≠ "" ∧
      (mainStep env (mainStep env st inp1).1 inp2).1.chat_history =
        st.chat_history ++ [⟨inp1.question, a1⟩, ⟨inp2.question, a2⟩]

/-- Token sequence used by the C8 witness: 600 tokens, which split into one
full 512-token window and one trailing window starting at token 384. -/
def tsW : List Nat := List.replicate 600 7

/-! ## Basic lemmas about the URL helpers -/

lemma splitOnceSlash_eq_none (l : List Char) (h : '/' ∉ l) :
    splitOnceSlash l = none := by
  induction l with
  | nil => rfl
  | cons c cs ih =>
    have hc : ¬ c = '/' := fun hc => h (hc ▸ List.mem_cons_self c cs)
    have hcs : '/' ∉ cs := fun hm => h (List.mem_cons_of_mem c hm)
    simp only [splitOnceSlash, if_neg hc, ih hcs]

lemma is_valid_github_url_iff (url : String) :
    is_valid_github_url url = true ↔
      (((urlparse url).scheme = "http" ∨ (urlparse url).scheme = "https") ∧
        (urlparse url).netloc = "github.com" ∧
        startsWithSlash (urlparse url).path = true) := by
  simp [is_valid_github_url, Bool.and_eq_true, Bool.or_eq_true, and_assoc]

/-- C1 (counterexample): the claim is false at the concrete URL
`https://github.com/a/b/c`, whose stripped path `a/b/c` has two separators
yet is accepted by `is_valid_github_url`. -/
theorem C1_validator_counterexample : ¬ claimC1 := by
  intro h
  exact absurd (h "https://github.com/a/b/c" (by decide)) (by decide)

/-- C1 (amended): the validator returns false exactly when the scheme is not
http/https, or the host is not exactly `github.com`, or the path does not
start with `"/"`; it performs no one-separator check on the path. -/
theorem C1_validator_rejects_iff : ∀ url : String,
    is_valid_github_url url = false ↔
      ¬(((urlparse url).scheme = "http" ∨ (urlparse url).scheme = "https") ∧
          (urlparse url).netloc = "github.com" ∧
          startsWithSlash (urlparse url).path = true) := by
  intro url
  rw [← Bool.not_eq_true]
  exact not_congr (is_valid_github_url_iff url)

/-! ## Claim C10 -/

/-- C10: on every URL whose path contains no `"/"` after stripping leading
and trailing slashes, `check_github_repo_exists` returns false instead of
raising: the `ValueError` from the failed owner/repo unpacking is caught. -/
theorem C10_no_separator_returns_false : ∀ (env : Env) (url : String),
    (stripSlashes (urlparse url).path).data.count '/' = 0 →
    check_github_repo_exists env url = false := by
  intro env url h
  unfold check_github_repo_exists
  rw [splitOnceSlash_eq_none _ (List.count_eq_zero.mp h)]

/-- C10 witness: `https://github.com/torvalds` has an owner but no repo
segment; even though every HTTP probe would answer 200, the check returns
false. -/
theorem C10_no_separator_witness :
    (stripSlashes (urlparse "https://github.com/torvalds").path).data.count '/'
        = 0 ∧
      check_github_repo_exists envAll200 "https://github.com/torvalds" =
        false :=
  ⟨by decide, C10_no_separator_returns_false envAll200
    "https://github.com/torvalds" (by decide)⟩

/-! ## Claim C5 -/

/-- C5: no document returned by the fetch carries a denylisted extension,
whatever the repository contents and the caller-supplied directory
exclusions. -/
theorem C5_denylist_never_fetched :
    ∀ (env : Env) (gc : Option Unit) (user repo : Option String)
      (excluded_dirs : List String) (branch : String) (d : Document),
      d ∈ load_documents env gc user repo excluded_dirs branch →
      extOf d.path ∉ fileExtDenylist := by
  intro env gc user repo excluded_dirs branch d hd
  unfold load_documents at hd
  rw [List.mem_filter] at hd
  have h2 := hd.2
  simp only [Bool.and_eq_true, Bool.not_eq_true'] at h2
  have hc := h2.2
  intro hmem
  simp at hc
  exact hc hmem

/-- C5 witness: `src/app.py` is fetched from the fixture tree and its
extension is not denylisted (while `logo.png` is filtered out). -/
theorem C5_denylist_witness :
    (⟨"src/app.py", [1, 2]⟩ : Document) ∈
        load_documents envTwoFiles none none none [] "main" ∧
      extOf "src/app.py" ∉ fileExtDenylist :=
  ⟨by decide, C5_denylist_never_fetched envTwoFiles none none none [] "main"
    ⟨"src/app.py", [1, 2]⟩ (by decide)⟩

/-! ## Claim C7 -/

/-- C7: when the URL fails validation, the rerun performs no repository
existence check at all — no `check_github_repo_exists` invocation (and hence
no network probe) appears in the trace. -/
theorem C7_no_check_without_validation :
    ∀ (env : Env) (st : SessionState) (inp : Inputs) (url : String),
      is_valid_github_url inp.github_repo_link = false →
      Call.checkRepo url ∉ (mainStep env st inp).2 := by
  intro env st inp url hv
  unfold mainStep
  by_cases h0 : inp.github_repo_link = ""
  · simp [h0]
  · rw [if_neg h0, if_pos hv]
    simp

/-- C7 witness: the spec's scenario URL `https://not-github.com/foo/bar`
fails validation and the rerun trace contains no existence check, even
though the environment would answer 200 to any probe. -/
theorem C7_no_check_witness :
    is_valid_github_url "https://not-github.com/foo/bar" = false ∧
      Call.checkRepo "https://not-github.com/foo/bar" ∉
        (mainStep envAll200 SessionState.init
          { github_repo_link := "https://not-github.com/foo/bar"
            branch := "main"
            exclude_dirs_checked := false
            excluded_dirs_input := ""
            question := ""
            submit := false }).2 :=
  ⟨by decide, C7_no_check_without_validation envAll200 SessionState.init _ _
    (by decide)⟩

/-! ## Structural lemmas about one rerun -/

lemma submitQuestion_calls (env : Env) (q : String) (hist : List ChatEntry) :
    (submitQuestion env q hist).1 =
      [Call.engineQuery q, Call.engineChat q] := rfl

lemma submitQuestion_ok (env : Env) (q : String) (hist : List ChatEntry)
    (s a : String) (h1 : env.summaryQuery q = .ok s)
    (h2 : env.chat q = .ok a) :
    (submitQuestion env q hist).2 = .ok (hist ++ [⟨q, a⟩]) := by
  unfold submitQuestion
  rw [h1, h2]

lemma submitQuestion_error_of_error (env : Env) (q : String)
    (hist : List ChatEntry) (e : String)
    (h : env.summaryQuery q = .error e ∨ env.chat q = .error e) :
    ∃ e2, (submitQuestion env q hist).2 = .error e2 := by
  unfold submitQuestion
  rcases hsq : env.summaryQuery q with es | s
  · exact ⟨es, rfl⟩
  · rcases h with h | h
    · rw [hsq] at h
      cases h
    · rw [h]
      exact ⟨e, rfl⟩

lemma submitQuestion_ok_inv (env : Env) (q : String) (hist : List ChatEntry)
    (h2 : List ChatEntry) (h : (submitQuestion env q hist).2 = .ok h2) :
    ∃ s a, env.summaryQuery q = .ok s ∧ env.chat q = .ok a ∧
      h2 = hist ++ [⟨q, a⟩] := by
  unfold submitQuestion at h
  rcases hsq : env.summaryQuery q with es | s <;> rw [hsq] at h
  · cases h
  · rcases hch : env.chat q with ec | a <;> rw [hch] at h
    · cases h
    · simp only [Except.ok.injEq] at h
      exact ⟨s, a, rfl, rfl, h.symm⟩

lemma clientPhase_fields (st : SessionState) :
    (clientPhase st).index = st.index ∧
      (clientPhase st).summary = st.summary ∧
      (clientPhase st).query_engine = st.query_engine ∧
      (clientPhase st).summary_query_engine = st.summary_query_engine ∧
      (clientPhase st).chat_history = st.chat_history := by
  unfold clientPhase
  split <;> simp

lemma buildPhase_skip (env : Env) (gc : Option Unit) (user repo : Option String)
    (ed : List String) (br : String) (st : SessionState)
    (ix : RetrievalIndex) (sm : SummaryIdx)
    (h1 : st.index = some ix) (h2 : st.summary = some sm) :
    buildPhase env gc user repo ed br st = (st, []) := by
  unfold buildPhase
  rw [if_neg (by simp [h1, h2])]

lemma buildPhase_preserves (env : Env) (gc : Option Unit)
    (user repo : Option String) (ed : List String) (br : String)
    (st : SessionState) :
    (buildPhase env gc user repo ed br st).1.github_client =
        st.github_client ∧
      (buildPhase env gc user repo ed br st).1.query_engine =
        st.query_engine ∧
      (buildPhase env gc user repo ed br st).1.summary_query_engine =
        st.summary_query_engine ∧
      (buildPhase env gc user repo ed br st).1.chat_history =
        st.chat_history := by
  unfold buildPhase
  split <;> simp

lemma buildPhase_built (env : Env) (gc : Option Unit)
    (user repo : Option String) (ed : List String) (br : String)
    (st : SessionState) :
    (buildPhase env gc user repo ed br st).1.index.isSome = true ∧
      (buildPhase env gc user repo ed br st).1.summary.isSome = true := by
  unfold buildPhase
  split
  · simp
  · rename_i h
    push_neg at h
    constructor
    · simp [Option.isSome_iff_ne_none, h.1]
    · simp [Option.isSome_iff_ne_none, h.2]

lemma buildPhase_trace (env : Env) (gc : Option Unit)
    (user repo : Option String) (ed : List String) (br : String)
    (st : SessionState) :
    (buildPhase env gc user repo ed br st).2 =
        [Call.fetch user repo ed br, Call.buildIndex, Call.buildSummary] ∨
      (buildPhase env gc user repo ed br st).2 = [] := by
  unfold buildPhase
  split <;> simp

lemma enginePhase_preserves (st : SessionState) :
    (enginePhase st).index = st.index ∧
      (enginePhase st).summary = st.summary ∧
      (enginePhase st).github_client = st.github_client ∧
      (enginePhase st).chat_history = st.chat_history := by
  unfold enginePhase engineSummaryPhase engineIndexPhase
  split <;> split <;> simp

lemma engineSummaryPhase_query (st : SessionState) :
    (engineSummaryPhase st).query_engine = st.query_engine := by
  unfold engineSummaryPhase
  split <;> simp

lemma engineIndexPhase_sengine (st : SessionState) :
    (engineIndexPhase st).summary_query_engine =
      st.summary_query_engine := by
  unfold engineIndexPhase
  split <;> simp

lemma enginePhase_engine_some (st : SessionState) (e : ChatEngine)
    (h : st.query_engine = some e) :
    (enginePhase st).query_engine = some e := by
  unfold enginePhase
  rw [engineSummaryPhase_query]
  unfold engineIndexPhase
  rw [if_neg (by simp [h])]
  exact h

lemma enginePhase_sengine_some (st : SessionState) (e : ChatEngine)
    (h : st.summary_query_engine = some e) :
    (enginePhase st).summary_query_engine = some e := by
  unfold enginePhase engineSummaryPhase
  rw [if_neg (by rw [engineIndexPhase_sengine]; simp [h])]
  rw [engineIndexPhase_sengine]
  exact h

lemma submitPhase_preserves (env : Env) (st : SessionState) (b : Bool)
    (q : String) :
    (submitPhase env st b q).1.index = st.index ∧
      (submitPhase env st b q).1.summary = st.summary ∧
      (submitPhase env st b q).1.github_client = st.github_client ∧
      (submitPhase env st b q).1.query_engine = st.query_engine ∧
      (submitPhase env st b q).1.summary_query_engine =
        st.summary_query_engine := by
  unfold submitPhase
  split
  · split
    · simp
    · split <;> simp
  · simp

lemma submitPhase_trace (env : Env) (st : SessionState) (b : Bool)
    (q : String) :
    (submitPhase env st b q).2 = [] ∨
      (submitPhase env st b q).2 =
        [Call.engineQuery q, Call.engineChat q] := by
  unfold submitPhase
  split
  · split
    · simp
    · split <;> simp [submitQuestion_calls]
  · simp

lemma submitPhase_history (env : Env) (st : SessionState) (b : Bool)
    (q : String) :
    (submitPhase env st b q).1.chat_history = st.chat_history ∨
      ∃ a, (submitPhase env st b q).1.chat_history =
        st.chat_history ++ [⟨q, a⟩] := by
  unfold submitPhase
  split
  · split
    · simp
    · split
      · rename_i h2 hok
        rcases submitQuestion_ok_inv env q st.chat_history h2 hok with
          ⟨s, a, -, -, hh⟩
        right
        exact ⟨a, by simp [hh]⟩
      · simp
  · simp

lemma mainCore_state_no_rebuild (env : Env) (st : SessionState)
    (inp : Inputs) (ix : RetrievalIndex) (sm : SummaryIdx)
    (h1 : st.index = some ix) (h2 : st.summary = some sm) :
    (mainCore env st inp).1.index = some ix ∧
      (mainCore env st inp).1.summary = some sm := by
  have hc := clientPhase_fields st
  have hb := buildPhase_skip env (clientPhase st).github_client
    (extract_github_details inp.github_repo_link).1
    (extract_github_details inp.github_repo_link).2
    (parseExcludedDirs inp) inp.branch (clientPhase st) ix sm
    (by rw [hc.1]; exact h1) (by rw [hc.2.1]; exact h2)
  simp only [mainCore, hb]
  constructor
  · rw [(submitPhase_preserves _ _ _ _).1, (enginePhase_preserves _).1, hc.1]
    exact h1
  · rw [(submitPhase_preserves _ _ _ _).2.1, (enginePhase_preserves _).2.1,
      hc.2.1]
    exact h2

lemma mainCore_trace_no_rebuild (env : Env) (st : SessionState)
    (inp : Inputs) (ix : RetrievalIndex) (sm : SummaryIdx)
    (h1 : st.index = some ix) (h2 : st.summary = some sm) :
    (mainCore env st inp).2 = [] ∨
      (mainCore env st inp).2 =
        [Call.engineQuery inp.question, Call.engineChat inp.question] := by
  have hc := clientPhase_fields st
  have hb := buildPhase_skip env (clientPhase st).github_client
    (extract_github_details inp.github_repo_link).1
    (extract_github_details inp.github_repo_link).2
    (parseExcludedDirs inp) inp.branch (clientPhase st) ix sm
    (by rw [hc.1]; exact h1) (by rw [hc.2.1]; exact h2)
  simp only [mainCore, hb]
  simpa using submitPhase_trace env (enginePhase (clientPhase st))
    inp.submit inp.question

lemma mainCore_engine_some (env : Env) (st : SessionState) (inp : Inputs)
    (e : ChatEngine) (h : st.query_engine = some e) :
    (mainCore env st inp).1.query_engine = some e := by
  simp only [mainCore]
  rw [(submitPhase_preserves _ _ _ _).2.2.2.1]
  apply enginePhase_engine_some
  rw [(buildPhase_preserves _ _ _ _ _ _ _).2.1, (clientPhase_fields st).2.2.1]
  exact h

lemma mainCore_sengine_some (env : Env) (st : SessionState) (inp : Inputs)
    (e : ChatEngine) (h : st.summary_query_engine = some e) :
    (mainCore env st inp).1.summary_query_engine = some e := by
  simp only [mainCore]
  rw [(submitPhase_preserves _ _ _ _).2.2.2.2]
  apply enginePhase_sengine_some
  rw [(buildPhase_preserves _ _ _ _ _ _ _).2.2.1,
    (clientPhase_fields st).2.2.2.1]
  exact h

lemma mainCore_history (env : Env) (st : SessionState) (inp : Inputs) :
    (mainCore env st inp).1.chat_history = st.chat_history ∨
      ∃ a, (mainCore env st inp).1.chat_history =
        st.chat_history ++ [⟨inp.question, a⟩] := by
  simp only [mainCore]
  have hh : (enginePhase (buildPhase env (clientPhase st).github_client
      (extract_github_details inp.github_repo_link).1
      (extract_github_details inp.github_repo_link).2
      (parseExcludedDirs inp) inp.branch (clientPhase st)).1).chat_history =
      st.chat_history := by
    rw [(enginePhase_preserves _).2.2.2,
      (buildPhase_preserves _ _ _ _ _ _ _).2.2.2,
      (clientPhase_fields st).2.2.2.2]
  rcases submitPhase_history env
      (enginePhase (buildPhase env (clientPhase st).github_client
        (extract_github_details inp.github_repo_link).1
        (extract_github_details inp.github_repo_link).2
        (parseExcludedDirs inp) inp.branch (clientPhase st)).1)
      inp.submit inp.question with h | ⟨a, h⟩
  · left
    rw [h, hh]
  · right
    exact ⟨a, by rw [h, hh]⟩

lemma buildPhase_build (env : Env) (gc : Option Unit)
    (user repo : Option String) (ed : List String) (br : String)
    (st : SessionState) (h : st.index = none ∨ st.summary = none) :
    buildPhase env gc user repo ed br st =
      ({ st with
          index := some (create_index (load_documents env gc user repo ed br)
            mainTransformations),
          summary := some
            (create_summary (load_documents env gc user repo ed br)) },
        [Call.fetch user repo ed br, Call.buildIndex, Call.buildSummary]) := by
  unfold buildPhase
  rw [if_pos h]

lemma mainCore_build_dichotomy (env : Env) (st : SessionState)
    (inp : Inputs) :
    ((mainCore env st inp).1.index = st.index ∧
      (mainCore env st inp).1.summary = st.summary ∧
      ((mainCore env st inp).2 = [] ∨
        (mainCore env st inp).2 =
          [Call.engineQuery inp.question, Call.engineChat inp.question])) ∨
    ((mainCore env st inp).1.index.isSome = true ∧
      (mainCore env st inp).1.summary.isSome = true ∧
      ((mainCore env st inp).2 =
          [Call.fetch (extract_github_details inp.github_repo_link).1
            (extract_github_details inp.github_repo_link).2
            (parseExcludedDirs inp) inp.branch, Call.buildIndex,
            Call.buildSummary] ∨
        (mainCore env st inp).2 =
          [Call.fetch (extract_github_details inp.github_repo_link).1
            (extract_github_details inp.github_repo_link).2
            (parseExcludedDirs inp) inp.branch, Call.buildIndex,
            Call.buildSummary, Call.engineQuery inp.question,
            Call.engineChat inp.question])) := by
  by_cases hb : (clientPhase st).index = none ∨ (clientPhase st).summary = none
  · right
    have hbb := buildPhase_build env (clientPhase st).github_client
      (extract_github_details inp.github_repo_link).1
      (extract_github_details inp.github_repo_link).2
      (parseExcludedDirs inp) inp.branch (clientPhase st) hb
    simp only [mainCore, hbb]
    refine ⟨?_, ?_, ?_⟩
    · rw [(submitPhase_preserves _ _ _ _).1, (enginePhase_preserves _).1]
      rfl
    · rw [(submitPhase_preserves _ _ _ _).2.1, (enginePhase_preserves _).2.1]
      rfl
    · rcases submitPhase_trace env
          (enginePhase { clientPhase st with
            index := some (create_index (load_documents env
              (clientPhase st).github_client
              (extract_github_details inp.github_repo_link).1
              (extract_github_details inp.github_repo_link).2
              (parseExcludedDirs inp) inp.branch) mainTransformations),
            summary := some (create_summary (load_documents env
              (clientPhase st).github_client
              (extract_github_details inp.github_repo_link).1
              (extract_github_details inp.github_repo_link).2
              (parseExcludedDirs inp) inp.branch)) })
          inp.submit inp.question with hq | hq <;> rw [hq] <;> simp
  · left
    push_neg at hb
    obtain ⟨ix, hix⟩ := Option.ne_none_iff_exists'.mp hb.1
    obtain ⟨sm, hsm⟩ := Option.ne_none_iff_exists'.mp hb.2
    have h1 : st.index = some ix := by rw [← (clientPhase_fields st).1]; exact hix
    have h2 : st.summary = some sm := by
      rw [← (clientPhase_fields st).2.1]; exact hsm
    have hst := mainCore_state_no_rebuild env st inp ix sm h1 h2
    exact ⟨by rw [hst.1, h1], by rw [hst.2, h2],
      mainCore_trace_no_rebuild env st inp ix sm h1 h2⟩

lemma mainStep_state_no_rebuild (env : Env) (st : SessionState)
    (inp : Inputs) (ix : RetrievalIndex) (sm : SummaryIdx)
    (h1 : st.index = some ix) (h2 : st.summary = some sm) :
    (mainStep env st inp).1.index = some ix ∧
      (mainStep env st inp).1.summary = some sm := by
  simp only [mainStep]
  split_ifs with h0 hv hc
  · exact ⟨h1, h2⟩
  · exact ⟨h1, h2⟩
  · exact ⟨h1, h2⟩
  · exact mainCore_state_no_rebuild env st inp ix sm h1 h2

lemma mainStep_trace_no_rebuild (env : Env) (st : SessionState)
    (inp : Inputs) (ix : RetrievalIndex) (sm : SummaryIdx)
    (h1 : st.index = some ix) (h2 : st.summary = some sm) :
    (mainStep env st inp).2 = [] ∨
      (mainStep env st inp).2 = [Call.checkRepo inp.github_repo_link] ∨
      (mainStep env st inp).2 =
        [Call.checkRepo inp.github_repo_link,
          Call.engineQuery inp.question, Call.engineChat inp.question] := by
  simp only [mainStep]
  split_ifs with h0 hv hc
  · left; rfl
  · left; rfl
  · right; left; rfl
  · rcases mainCore_trace_no_rebuild env st inp ix sm h1 h2 with ht | ht <;>
      rw [ht]
    · right; left; rfl
    · right; right; rfl

lemma mainStep_engine_some (env : Env) (st : SessionState) (inp : Inputs)
    (e : ChatEngine) (h : st.query_engine = some e) :
    (mainStep env st inp).1.query_engine = some e := by
  simp only [mainStep]
  split_ifs with h0 hv hc
  · exact h
  · exact h
  · exact h
  · exact mainCore_engine_some env st inp e h

lemma mainStep_sengine_some (env : Env) (st : SessionState) (inp : Inputs)
    (e : ChatEngine) (h : st.summary_query_engine = some e) :
    (mainStep env st inp).1.summary_query_engine = some e := by
  simp only [mainStep]
  split_ifs with h0 hv hc
  · exact h
  · exact h
  · exact h
  · exact mainCore_sengine_some env st inp e h

lemma mainStep_history (env : Env) (st : SessionState) (inp : Inputs) :
    (mainStep env st inp).1.chat_history = st.chat_history ∨
      ∃ a, (mainStep env st inp).1.chat_history =
        st.chat_history ++ [⟨inp.question, a⟩] := by
  simp only [mainStep]
  split_ifs with h0 hv hc
  · left; rfl
  · left; rfl
  · left; rfl
  · exact mainCore_history env st inp

lemma mainStep_counts (env : Env) (st : SessionState) (inp : Inputs) :
    ((mainStep env st inp).1.index = st.index ∧
      (mainStep env st inp).1.summary = st.summary ∧
      (mainStep env st inp).2.countP isFetchCall = 0 ∧
      (mainStep env st inp).2.countP isBuildIndexCall = 0 ∧
      (mainStep env st inp).2.countP isBuildSummaryCall = 0) ∨
    ((mainStep env st inp).1.index.isSome = true ∧
      (mainStep env st inp).1.summary.isSome = true ∧
      (mainStep env st inp).2.countP isFetchCall = 1 ∧
      (mainStep env st inp).2.countP isBuildIndexCall = 1 ∧
      (mainStep env st inp).2.countP isBuildSummaryCall = 1) := by
  simp only [mainStep]
  split_ifs with h0 hv hc
  · left; exact ⟨rfl, rfl, rfl, rfl, rfl⟩
  · left; exact ⟨rfl, rfl, rfl, rfl, rfl⟩
  · left
    refine ⟨rfl, rfl, ?_, ?_, ?_⟩ <;>
      simp [List.countP_cons, isFetchCall, isBuildIndexCall,
        isBuildSummaryCall]
  · rcases mainCore_build_dichotomy env st inp with ⟨hi, hs, ht⟩ | ⟨hi, hs, ht⟩
    · left
      refine ⟨hi, hs, ?_, ?_, ?_⟩ <;> rcases ht with ht | ht <;>
        simp [ht, List.countP_cons, isFetchCall, isBuildIndexCall,
          isBuildSummaryCall]
    · right
      refine ⟨hi, hs, ?_, ?_, ?_⟩ <;> rcases ht with ht | ht <;>
        simp [ht, List.countP_cons, isFetchCall, isBuildIndexCall,
          isBuildSummaryCall]

lemma mainRun_no_rebuild (env : Env) :
    ∀ (inps : List Inputs) (st : SessionState) (ix : RetrievalIndex)
      (sm : SummaryIdx), st.index = some ix → st.summary = some sm →
      (mainRun env st inps).1.index = some ix ∧
        (mainRun env st inps).1.summary = some sm ∧
        (mainRun env st inps).2.countP isFetchCall = 0 ∧
        (mainRun env st inps).2.countP isBuildIndexCall = 0 ∧
        (mainRun env st inps).2.countP isBuildSummaryCall = 0 := by
  intro inps
  induction inps with
  | nil => intro st ix sm h1 h2; exact ⟨h1, h2, rfl, rfl, rfl⟩
  | cons inp rest IH =>
    intro st ix sm h1 h2
    have hst := mainStep_state_no_rebuild env st inp ix sm h1 h2
    have htr := mainStep_trace_no_rebuild env st inp ix sm h1 h2
    have hrest := IH (mainStep env st inp).1 ix sm hst.1 hst.2
    simp only [mainRun]
    refine ⟨hrest.1, hrest.2.1, ?_, ?_, ?_⟩ <;>
      rw [List.countP_append] <;> rcases htr with ht | ht | ht <;>
      simp [ht, List.countP_cons, isFetchCall, isBuildIndexCall,
        isBuildSummaryCall, hrest.2.2.1, hrest.2.2.2.1, hrest.2.2.2.2]

lemma mainRun_engine_some (env : Env) :
    ∀ (inps : List Inputs) (st : SessionState) (e : ChatEngine),
      st.query_engine = some e →
      (mainRun env st inps).1.query_engine = some e := by
  intro inps
  induction inps with
  | nil => intro st e h; exact h
  | cons inp rest IH =>
    intro st e h
    simp only [mainRun]
    exact IH (mainStep env st inp).1 e (mainStep_engine_some env st inp e h)

lemma mainRun_sengine_some (env : Env) :
    ∀ (inps : List Inputs) (st : SessionState) (e : ChatEngine),
      st.summary_query_engine = some e →
      (mainRun env st inps).1.summary_query_engine = some e := by
  intro inps
  induction inps with
  | nil => intro st e h; exact h
  | cons inp rest IH =>
    intro st e h
    simp only [mainRun]
    exact IH (mainStep env st inp).1 e (mainStep_sengine_some env st inp e h)

lemma mainRun_counts (env : Env) :
    ∀ (inps : List Inputs) (st : SessionState),
      (mainRun env st inps).2.countP isFetchCall ≤ 1 ∧
        (mainRun env st inps).2.countP isBuildIndexCall ≤ 1 ∧
        (mainRun env st inps).2.countP isBuildSummaryCall ≤ 1 := by
  intro inps
  induction inps with
  | nil => intro st; exact ⟨by simp [mainRun], by simp [mainRun],
      by simp [mainRun]⟩
  | cons inp rest IH =>
    intro st
    simp only [mainRun]
    rcases mainStep_counts env st inp with ⟨hi, hs, c1, c2, c3⟩ |
        ⟨hi, hs, c1, c2, c3⟩
    · have hr := IH (mainStep env st inp).1
      refine ⟨?_, ?_, ?_⟩ <;> rw [List.countP_append] <;> omega
    · obtain ⟨ix, hix⟩ := Option.isSome_iff_exists.mp hi
      obtain ⟨sm, hsm⟩ := Option.isSome_iff_exists.mp hs
      have hr := mainRun_no_rebuild env rest (mainStep env st inp).1 ix sm
        hix hsm
      refine ⟨?_, ?_, ?_⟩ <;> rw [List.countP_append] <;> omega

lemma submitPhase_history_error (env : Env) (st : SessionState) (b : Bool)
    (q : String) (e : String)
    (h : env.summaryQuery q = .error e ∨ env.chat q = .error e) :
    (submitPhase env st b q).1.chat_history = st.chat_history := by
  unfold submitPhase
  split
  · split
    · simp
    · split
      · rename_i h2 hok
        obtain ⟨e2, he⟩ := submitQuestion_error_of_error env q
          st.chat_history e h
        rw [hok] at he
        simp at he
      · simp
  · simp

lemma mainCore_history_error (env : Env) (st : SessionState) (inp : Inputs)
    (e : String) (h : env.summaryQuery inp.question = .error e ∨
      env.chat inp.question = .error e) :
    (mainCore env st inp).1.chat_history = st.chat_history := by
  simp only [mainCore]
  rw [submitPhase_history_error env _ inp.submit inp.question e h,
    (enginePhase_preserves _).2.2.2, (buildPhase_preserves _ _ _ _ _ _ _).2.2.2,
    (clientPhase_fields st).2.2.2.2]

lemma mainStep_history_error (env : Env) (st : SessionState) (inp : Inputs)
    (e : String) (h : env.summaryQuery inp.question = .error e ∨
      env.chat inp.question = .error e) :
    (mainStep env st inp).1.chat_history = st.chat_history := by
  simp only [mainStep]
  split_ifs with h0 hv hc
  · rfl
  · rfl
  · rfl
  · exact mainCore_history_error env st inp e h

lemma submitPhase_appends (env : Env) (st : SessionState) (b : Bool)
    (q s a : String) (hb : b = true) (hq : q ≠ "")
    (h1 : env.summaryQuery q = .ok s) (h2 : env.chat q = .ok a) :
    (submitPhase env st b q).1.chat_history =
      st.chat_history ++ [⟨q, a⟩] := by
  unfold submitPhase
  rw [if_pos hb, if_neg hq, submitQuestion_ok env q st.chat_history s a h1 h2]

lemma mainCore_appends (env : Env) (st : SessionState) (inp : Inputs)
    (s a : String) (hs : inp.submit = true) (hq : inp.question ≠ "")
    (h1 : env.summaryQuery inp.question = .ok s)
    (h2 : env.chat inp.question = .ok a) :
    (mainCore env st inp).1.chat_history =
      st.chat_history ++ [⟨inp.question, a⟩] := by
  simp only [mainCore]
  rw [submitPhase_appends env _ inp.submit inp.question s a hs hq h1 h2,
    (enginePhase_preserves _).2.2.2, (buildPhase_preserves _ _ _ _ _ _ _).2.2.2,
    (clientPhase_fields st).2.2.2.2]

lemma mainStep_appends (env : Env) (st : SessionState) (inp : Inputs)
    (s a : String) (hv : is_valid_github_url inp.github_repo_link = true)
    (hc : check_github_repo_exists env inp.github_repo_link = true)
    (hs : inp.submit = true) (hq : inp.question ≠ "")
    (h1 : env.summaryQuery inp.question = .ok s)
    (h2 : env.chat inp.question = .ok a) :
    (mainStep env st inp).1.chat_history =
      st.chat_history ++ [⟨inp.question, a⟩] := by
  have hne : inp.github_repo_link ≠ "" := by
    intro h0
    rw [h0] at hv
    exact absurd hv (by decide)
  simp only [mainStep]
  rw [if_neg hne, if_neg (by simp [hv]), if_neg (by simp [hc])]
  exact mainCore_appends env st inp s a hs hq h1 h2

/-- C2 (counterexample): build a session for `a/b`, then supply the distinct
valid and existing URL `c/d`; the rerun performs no fetch at all, so no
reset to `Empty` happens. -/
theorem C2_reset_counterexample : ¬ claimC2 := by
  intro h
  have hfetch := (h envAll200 inpRepoA inpRepoB (by decide) (by decide)
    (by decide) (by decide)).1
  exact absurd hfetch (by decide)

/-- C2 (amended): supplying a different repository URL does not reset the
session.  Once both indices are stored, any rerun — whatever URL the user
enters — leaves them unchanged and performs no fetch and no index build;
the old indices are reused. -/
theorem C2_no_reset_on_new_url :
    ∀ (env : Env) (st : SessionState) (inp : Inputs) (ix : RetrievalIndex)
      (sm : SummaryIdx), st.index = some ix → st.summary = some sm →
      (mainStep env st inp).1.index = some ix ∧
        (mainStep env st inp).1.summary = some sm ∧
        (mainStep env st inp).2.any isFetchCall = false ∧
        Call.buildIndex ∉ (mainStep env st inp).2 ∧
        Call.buildSummary ∉ (mainStep env st inp).2 := by
  intro env st inp ix sm h1 h2
  have hst := mainStep_state_no_rebuild env st inp ix sm h1 h2
  refine ⟨hst.1, hst.2, ?_, ?_, ?_⟩ <;>
    rcases mainStep_trace_no_rebuild env st inp ix sm h1 h2 with ht | ht | ht <;>
    simp [ht, isFetchCall]

/-- C2 witness: the amended theorem applied to the concrete `Ready` state
and the different repository URL `c/d`. -/
theorem C2_no_reset_witness :
    readyState.index = some (RetrievalIndex.mk []) ∧
      (mainStep envAll200 readyState inpRepoB).1.index =
        some (RetrievalIndex.mk []) ∧
      (mainStep envAll200 readyState inpRepoB).1.summary =
        some (SummaryIdx.mk []) ∧
      (mainStep envAll200 readyState inpRepoB).2.any isFetchCall = false :=
  ⟨rfl,
    (C2_no_reset_on_new_url envAll200 readyState inpRepoB
      (RetrievalIndex.mk []) (SummaryIdx.mk []) rfl rfl).1,
    (C2_no_reset_on_new_url envAll200 readyState inpRepoB
      (RetrievalIndex.mk []) (SummaryIdx.mk []) rfl rfl).2.1,
    (C2_no_reset_on_new_url envAll200 readyState inpRepoB
      (RetrievalIndex.mk []) (SummaryIdx.mk []) rfl rfl).2.2.1⟩

/-! ## Claim C3 -/

/-- C3: answering a question dispatches it to both engines (both calls are
always in the trace), and the operation is all-or-nothing: if either engine
raises, the whole call fails and the chat history is exactly what it was
before; a history entry is recorded only when both calls succeed. -/
theorem C3_all_or_nothing :
    ∀ (env : Env) (question : String) (hist : List ChatEntry),
      (submitQuestion env question hist).1 =
        [Call.engineQuery question, Call.engineChat question] ∧
      (∀ e, env.summaryQuery question = .error e ∨
          env.chat question = .error e →
        ∃ e2, (submitQuestion env question hist).2 = .error e2) ∧
      (∀ s a, env.summaryQuery question = .ok s →
        env.chat question = .ok a →
        (submitQuestion env question hist).2 = .ok (hist ++ [⟨question, a⟩])) ∧
      (∀ h2, (submitQuestion env question hist).2 = .ok h2 →
        ∃ s a, env.summaryQuery question = .ok s ∧
          env.chat question = .ok a ∧ h2 = hist ++ [⟨question, a⟩]) ∧
      (∀ (st : SessionState) (inp : Inputs) e,
        env.summaryQuery inp.question = .error e ∨
          env.chat inp.question = .error e →
        (mainStep env st inp).1.chat_history = st.chat_history) := by
  intro env question hist
  refine ⟨rfl, ?_, ?_, ?_, ?_⟩
  · intro e he
    exact submitQuestion_error_of_error env question hist e he
  · intro s a h1 h2
    exact submitQuestion_ok env question hist s a h1 h2
  · intro h2 hok
    exact submitQuestion_ok_inv env question hist h2 hok
  · intro st inp e he
    exact mainStep_history_error env st inp e he

/-- C3 witness: with a summary engine that raises, the submit operation
fails as a whole. -/
theorem C3_all_or_nothing_witness :
    ∃ e2, (submitQuestion envErrSummary "q" []).2 = .error e2 :=
  (C3_all_or_nothing envErrSummary "q" []).2.1 "summary backend failure"
    (Or.inl rfl)

/-- C4: once both indices are stored, no later rerun — question submissions
included — fetches or rebuilds: the stored indices and engines survive any
sequence of interactions unchanged; and over any session whatsoever, the
fetch, `create_index` and `create_summary` operations each run at most
once. -/
theorem C4_build_once_reuse :
    (∀ (env : Env) (st : SessionState) (inps : List Inputs)
      (ix : RetrievalIndex) (sm : SummaryIdx),
      st.index = some ix → st.summary = some sm →
      (mainRun env st inps).1.index = some ix ∧
        (mainRun env st inps).1.summary = some sm ∧
        (mainRun env st inps).2.countP isFetchCall = 0 ∧
        (mainRun env st inps).2.countP isBuildIndexCall = 0 ∧
        (mainRun env st inps).2.countP isBuildSummaryCall = 0 ∧
        (∀ e, st.query_engine = some e →
          (mainRun env st inps).1.query_engine = some e) ∧
        (∀ e, st.summary_query_engine = some e →
          (mainRun env st inps).1.summary_query_engine = some e)) ∧
    (∀ (env : Env) (st : SessionState) (inps : List Inputs),
      (mainRun env st inps).2.countP isFetchCall ≤ 1 ∧
        (mainRun env st inps).2.countP isBuildIndexCall ≤ 1 ∧
        (mainRun env st inps).2.countP isBuildSummaryCall ≤ 1) := by
  constructor
  · intro env st inps ix sm h1 h2
    have h := mainRun_no_rebuild env inps st ix sm h1 h2
    exact ⟨h.1, h.2.1, h.2.2.1, h.2.2.2.1, h.2.2.2.2,
      fun e he => mainRun_engine_some env inps st e he,
      fun e he => mainRun_sengine_some env inps st e he⟩
  · intro env st inps
    exact mainRun_counts env inps st

/-- C4 witness: a `Ready` session answering two questions in a row keeps its
index and performs zero builds. -/
theorem C4_build_once_witness :
    readyState.index = some (RetrievalIndex.mk []) ∧
      (mainRun envAll200 readyState [inpQ1, inpQ2]).1.index =
        some (RetrievalIndex.mk []) ∧
      (mainRun envAll200 readyState [inpQ1, inpQ2]).2.countP
          isBuildIndexCall = 0 :=
  ⟨rfl,
    (C4_build_once_reuse.1 envAll200 readyState [inpQ1, inpQ2]
      (RetrievalIndex.mk []) (SummaryIdx.mk []) rfl rfl).1,
    (C4_build_once_reuse.1 envAll200 readyState [inpQ1, inpQ2]
      (RetrievalIndex.mk []) (SummaryIdx.mk []) rfl rfl).2.2.2.1⟩

/-- C6 (counterexample): nothing in the code keeps the recorded answer
non-empty — with a retrieval engine whose response stringifies to `""`,
both appended entries carry an empty answer field. -/
theorem C6_two_entries_counterexample : ¬ claimC6 := by
  intro h
  obtain ⟨a1, a2, h1, h2, heq⟩ := h envEmptyAnswer readyState inpQa inpQb
    (by decide) rfl rfl (by decide) (by decide)
  rw [show (mainStep envEmptyAnswer
      (mainStep envEmptyAnswer readyState inpQa).1 inpQb).1.chat_history =
      [⟨"a", ""⟩, ⟨"b", ""⟩] from by decide] at heq
  simp [readyState, inpQa, inpQb, inpRepoA] at heq
  exact h1 heq.1.symm

/-- C6 (amended): when both engine calls succeed for both questions, exactly
two entries are appended, in submission order, each with the non-empty
submitted question; the answer field holds the retrieval engine's response
string, which the code does not guarantee to be non-empty.  Entries are only
ever appended, never mutated or removed. -/
theorem C6_two_entries_in_order :
    ∀ (env : Env) (st : SessionState) (inp1 inp2 : Inputs)
      (s1 a1 s2 a2 : String),
      isReady st = true →
      is_valid_github_url inp1.github_repo_link = true →
      is_valid_github_url inp2.github_repo_link = true →
      check_github_repo_exists env inp1.github_repo_link = true →
      check_github_repo_exists env inp2.github_repo_link = true →
      inp1.submit = true → inp2.submit = true →
      inp1.question ≠ "" → inp2.question ≠ "" →
      env.summaryQuery inp1.question = .ok s1 →
      env.chat inp1.question = .ok a1 →
      env.summaryQuery inp2.question = .ok s2 →
      env.chat inp2.question = .ok a2 →
      ((mainStep env (mainStep env st inp1).1 inp2).1.chat_history =
        st.chat_history ++ [⟨inp1.question, a1⟩, ⟨inp2.question, a2⟩]) ∧
      (∀ (env2 : Env) (st2 : SessionState) (inp3 : Inputs),
        (mainStep env2 st2 inp3).1.chat_history = st2.chat_history ∨
          ∃ a, (mainStep env2 st2 inp3).1.chat_history =
            st2.chat_history ++ [⟨inp3.question, a⟩]) := by
  intro env st inp1 inp2 s1 a1 s2 a2 hr hv1 hv2 hc1 hc2 hs1 hs2 hq1 hq2
    ho1 ho2 ho3 ho4
  constructor
  · have e1 := mainStep_appends env st inp1 s1 a1 hv1 hc1 hs1 hq1 ho1 ho2
    have e2 := mainStep_appends env (mainStep env st inp1).1 inp2 s2 a2
      hv2 hc2 hs2 hq2 ho3 ho4
    rw [e2, e1, List.append_assoc]
    rfl
  · intro env2 st2 inp3
    exact mainStep_history env2 st2 inp3

/-- C6 witness: the amended theorem at the concrete `Ready` state — both
questions get appended in order with the engine's answers. -/
theorem C6_two_entries_witness :
    isReady readyState = true ∧
      (mainStep envAll200 (mainStep envAll200 readyState inpQa).1
          inpQb).1.chat_history =
        readyState.chat_history ++
          [⟨"a", "chat answer"⟩, ⟨"b", "chat answer"⟩] :=
  ⟨by decide,
    (C6_two_entries_in_order envAll200 readyState inpQa inpQb
      "summary answer" "chat answer" "summary answer" "chat answer"
      (by decide) (by decide) (by decide) (by decide) (by decide) rfl rfl
      (by decide) (by decide) rfl rfl rfl rfl).1⟩

/-! ## Token-splitter lemmas and claim C8 -/

lemma splitTokensGo_getD (size step : Nat) (hstep : 0 < step) :
    ∀ (fuel : Nat) (ts : List Nat), ts.length ≤ fuel →
      ∀ i, i < (splitTokensGo size step fuel ts).length →
      (splitTokensGo size step fuel ts).getD i [] =
        (ts.drop (i * step)).take size := by
  intro fuel
  induction fuel with
  | zero =>
    intro ts hts i hi
    have hnil : ts = [] := List.length_eq_zero.mp (Nat.le_zero.mp hts)
    subst hnil
    simp [splitTokensGo] at hi
  | succ n IH =>
    intro ts hts i hi
    cases ts with
    | nil => simp [splitTokensGo] at hi
    | cons t ts0 =>
      by_cases hle : ts0.length + 1 ≤ size
      · have hi1 : i < 1 := by simpa [splitTokensGo, hle] using hi
        have hz : i = 0 := by omega
        subst hz
        have htake : List.take size (t :: ts0) = t :: ts0 :=
          List.take_of_length_le (by simpa using hle)
        simp [splitTokensGo, hle, htake]
      · rcases i with _ | j
        · simp [splitTokensGo, hle]
        · have hsz : size < ts0.length + 1 := Nat.lt_of_not_le hle
          have hlen : ((t :: ts0).drop step).length ≤ n := by
            rw [List.length_drop]
            simp only [List.length_cons] at hts ⊢
            omega
          have hgo : splitTokensGo size step (n + 1) (t :: ts0) =
              (t :: ts0).take size ::
                splitTokensGo size step n ((t :: ts0).drop step) := by
            simp [splitTokensGo, hle]
          have hi2 : j <
              (splitTokensGo size step n ((t :: ts0).drop step)).length := by
            rw [hgo] at hi
            simpa using hi
          rw [hgo, List.getD_cons_succ,
            IH ((t :: ts0).drop step) hlen j hi2, List.drop_drop]
          have harith : step + j * step = (j + 1) * step := by ring
          rw [harith]

lemma splitTokensGo_full (size step : Nat) (hstep : 0 < step) :
    ∀ (fuel : Nat) (ts : List Nat), ts.length ≤ fuel →
      ∀ i, i + 1 < (splitTokensGo size step fuel ts).length →
      size + i * step < ts.length := by
  intro fuel
  induction fuel with
  | zero =>
    intro ts hts i hi
    have hnil : ts = [] := List.length_eq_zero.mp (Nat.le_zero.mp hts)
    subst hnil
    simp [splitTokensGo] at hi
  | succ n IH =>
    intro ts hts i hi
    cases ts with
    | nil => simp [splitTokensGo] at hi
    | cons t ts0 =>
      by_cases hle : ts0.length + 1 ≤ size
      · exfalso
        simp [splitTokensGo, hle] at hi
      · have hsz : size < ts0.length + 1 := Nat.lt_of_not_le hle
        rcases i with _ | j
        · simpa using hsz
        · have hlen : ((t :: ts0).drop step).length ≤ n := by
            rw [List.length_drop]
            simp only [List.length_cons] at hts ⊢
            omega
          have hgo : splitTokensGo size step (n + 1) (t :: ts0) =
              (t :: ts0).take size ::
                splitTokensGo size step n ((t :: ts0).drop step) := by
            simp [splitTokensGo, hle]
          have hi2 : j + 1 <
              (splitTokensGo size step n ((t :: ts0).drop step)).length := by
            rw [hgo] at hi
            simpa using hi
          have hrec := IH ((t :: ts0).drop step) hlen j hi2
          rw [List.length_drop] at hrec
          have harith : (j + 1) * step = j * step + step := by ring
          simp only [List.length_cons] at hrec ⊢
          omega

lemma splitTokens_window (ts : List Nat) (i : Nat)
    (hi : i < (splitTokens 512 128 ts).length) :
    (splitTokens 512 128 ts).getD i [] = (ts.drop (i * 384)).take 512 :=
  splitTokensGo_getD 512 384 (by norm_num) ts.length ts le_rfl i hi

lemma splitTokens_full_chunk (ts : List Nat) (i : Nat)
    (hi : i + 1 < (splitTokens 512 128 ts).length) :
    512 + i * 384 < ts.length :=
  splitTokensGo_full 512 384 (by norm_num) ts.length ts le_rfl i hi

/-- C8: the retrieval index is built over every document split into
overlapping token windows of size 512 — window `i` covers tokens
`[384·i, 384·i + 512)`, every window with a successor is full (512 tokens)
and shares exactly its last 128 tokens with the head of the next window —
while the summary index holds each whole document with no chunking. -/
theorem C8_chunk512_overlap128_summary_whole :
    (∀ documents : List Document,
      (create_index documents mainTransformations).chunks =
        (documents.map fun d => splitTokens 512 128 d.tokens).flatten) ∧
    (∀ (ts : List Nat) (i : Nat), i < (splitTokens 512 128 ts).length →
      (splitTokens 512 128 ts).getD i [] = (ts.drop (i * 384)).take 512) ∧
    (∀ (ts : List Nat) (i : Nat),
      i + 1 < (splitTokens 512 128 ts).length →
      ((splitTokens 512 128 ts).getD i []).length = 512 ∧
        ((splitTokens 512 128 ts).getD i []).drop 384 =
          ((splitTokens 512 128 ts).getD (i + 1) []).take 128 ∧
        (((splitTokens 512 128 ts).getD i []).drop 384).length = 128) ∧
    (∀ documents : List Document,
      (create_summary documents).nodes = documents.map Document.tokens) := by
  refine ⟨?_, ?_, ?_, ?_⟩
  · intro documents
    simp only [create_index, mainTransformations, List.foldl_cons,
      List.foldl_nil, applyTransformation, List.map_map]
    rfl
  · intro ts i hi
    exact splitTokens_window ts i hi
  · intro ts i hj
    have hi : i < (splitTokens 512 128 ts).length := Nat.lt_of_succ_lt hj
    have hw1 := splitTokens_window ts i hi
    have hw2 := splitTokens_window ts (i + 1) hj
    have hf := splitTokens_full_chunk ts i hj
    have hm : (i + 1) * 384 = i * 384 + 384 := by ring
    refine ⟨?_, ?_, ?_⟩
    · rw [hw1, List.length_take, List.length_drop]
      exact Nat.min_eq_left (by omega)
    · rw [hw1, hw2, List.drop_take, List.drop_drop, List.take_take, hm]
      norm_num
    · rw [hw1, List.drop_take, List.drop_drop, List.length_take,
        List.length_drop]
      have h128 : (512 : Nat) - 384 = 128 := by norm_num
      rw [h128]
      exact Nat.min_eq_left (by omega)
  · intro documents
    rfl

/-- C8 witness: on a concrete 600-token document the first window is full
(512 tokens) and its 384-token-offset tail — the 128-token overlap — has
length 128. -/
theorem C8_chunk512_witness :
    0 + 1 < (splitTokens 512 128 tsW).length ∧
      ((splitTokens 512 128 tsW).getD 0 []).length = 512 ∧
      (((splitTokens 512 128 tsW).getD 0 []).drop 384).length = 128 :=
  ⟨by decide,
    (C8_chunk512_overlap128_summary_whole.2.2.1 tsW 0 (by decide)).1,
    (C8_chunk512_overlap128_summary_whole.2.2.1 tsW 0 (by decide)).2.2⟩

/-! ## Claim C9 -/

/-- C9: there is a URL the validator accepts on which
`extract_github_details` yields `(None, None)`, and a validated flow that
then reaches the fetcher with owner and repo both `None`. -/
theorem C9_validated_url_reaches_fetch_with_none :
    ∃ (url : String) (env : Env) (inp : Inputs),
      is_valid_github_url url = true ∧
      extract_github_details url = (none, none) ∧
      inp.github_repo_link = url ∧
      Call.fetch none none (parseExcludedDirs inp) inp.branch ∈
        (mainStep env SessionState.init inp).2 :=
  ⟨"https://github.com/a/b/c", envAll200,
    { github_repo_link := "https://github.com/a/b/c"
      branch := "main"
      exclude_dirs_checked := false
      excluded_dirs_input := ""
      question := ""
      submit := false },
    by decide, by decide, rfl, by decide⟩
